import Mathlib

/-!
Shallow embedding of the Real-Time Drone Mapping Simulation core:
the notification service (`notification-service/server.js`) and the
client reconciler / animation queue
(`drone-mapping-client/src/hooks/useTileWebSocket.ts`).

Floating-point coordinates are modelled as rationals; `Date.now()` is an
explicit `now : Nat` argument; filesystem reads are a record of functions
(`FS`) so that `fs.existsSync` / `readFileSync + JSON.parse` become pure
lookups; JavaScript `Map` objects are association lists with JS `Map.set`
semantics (overwrite in place, append when fresh).
-/

namespace DroneMapping

/-! ### Path helpers (Node `path` module, on well-formed slash paths) -/

/-- Does `s` end with `suf`?  (JavaScript `String.prototype.endsWith`.) -/
def strEndsWith (s suf : String) : Bool :=
  suf.toList.isSuffixOf s.toList

/-- Model of Node `path.basename`: the component after the last slash. -/
def basename (p : String) : String :=
  String.mk ((p.toList.reverse.takeWhile (fun c => c ≠ '/')).reverse)

/-- Model of Node `path.dirname`: everything before the last slash. -/
def dirname (p : String) : String :=
  String.mk ((((p.toList.reverse).dropWhile (fun c => c ≠ '/')).drop 1).reverse)

/-- Model of Node `path.join dir file` for a well-formed directory path. -/
def pathJoin (dir file : String) : String :=
  if dir = "" then file else dir ++ "/" ++ file

/-- Remove the first occurrence of `pat` in the character list (JavaScript
`String.prototype.replace(pat, "")` with a plain-string pattern replaces
only the first occurrence). -/
def replaceFirstAux (pat : List Char) : List Char → List Char
  | [] => []
  | c :: rest =>
    if pat.isPrefixOf (c :: rest) then (c :: rest).drop pat.length
    else c :: replaceFirstAux pat rest

/-- JavaScript `s.replace(pat, "")`: delete the first occurrence of `pat`. -/
def jsReplaceFirst (s pat : String) : String :=
  String.mk (replaceFirstAux pat.toList s.toList)

/-! ### Data model (`types/tile.ts` and the sidecar schema) -/

/-- Geographic bounds of a tile (sidecar field `bounds`). -/
structure TileBounds where
  min_lon : Rat
  min_lat : Rat
  max_lon : Rat
  max_lat : Rat
  deriving DecidableEq, Repr

/-- The sidecar `bbox` array `[b0, b1, b2, b3]`; the data source writes it
in `[lat, lon, lat, lon]` order. -/
structure Bbox where
  b0 : Rat
  b1 : Rat
  b2 : Rat
  b3 : Rat
  deriving DecidableEq, Repr

/-- Parsed sidecar metadata (the JSON document next to each raster). -/
structure Metadata where
  filename : String
  row : Int
  col : Int
  bounds : TileBounds
  bbox : Bbox
  width : Int
  height : Int
  deriving DecidableEq, Repr

/-- A registered tile record: the sidecar metadata enriched by
`processNewTile` with `id`, the two TiTiler URLs and the arrival
timestamp (`TileMetadata` on the client, `tileData` on the server). -/
structure TileData where
  meta : Metadata
  id : String
  tileUrl : String
  tilejsonUrl : String
  timestamp : Nat
  deriving DecidableEq, Repr

/-! ### JS `Map` semantics -/

/-- Association list standing for a JavaScript `Map`. -/
abbrev JsMap (α : Type) := List (String × α)

/-- JS `Map.get`. -/
def mapGet {α : Type} : JsMap α → String → Option α
  | [], _ => none
  | (k', v) :: rest, k => if k' = k then some v else mapGet rest k

/-- JS `Map.set`: overwrite in place when the key is present (keeping the
original insertion position), append otherwise. -/
def mapSet {α : Type} : JsMap α → String → α → JsMap α
  | [], k, v => [(k, v)]
  | (k', v') :: rest, k, v =>
    if k' = k then (k, v) :: rest else (k', v') :: mapSet rest k v

/-- JS `Array.from(map.values())`: values in insertion order. -/
def mapValues {α : Type} (m : JsMap α) : List α := m.map Prod.snd

/-- JS `new Map(entries)`: fold `Map.set` over the entry list. -/
def mapOfEntries {α : Type} (l : List (String × α)) : JsMap α :=
  l.foldl (fun m p => mapSet m p.1 p.2) []

/-! ### Configuration constants (`server.js` defaults) -/

def TITILER_PUBLIC_URL : String := "http://localhost:8000"

def TITILER_URL : String := "http://titiler:8000"

def TILES_DIR : String := "/data/tiles"

/-- `WebSocket.OPEN` readyState constant. -/
def WS_OPEN : Nat := 1

/-! ### Server model -/

/-- The filesystem as the service observes it: `existsSync` on a path, and
the combined result of `fs.readFileSync` + `JSON.parse` on a sidecar path
(`none` when either throws — `readTileMetadata` catches both). -/
structure FS where
  existsSync : String → Bool
  parseFile : String → Option Metadata

/-- Model of `readTileMetadata`: read and parse a sidecar; any exception is
caught and turned into `null`/`none`. -/
def readTileMetadata (fs : FS) (jsonPath : String) : Option Metadata :=
  fs.parseFile jsonPath

/-- The server's registry: the `tilesMetadata` map. -/
abbrev Registry := JsMap TileData

/-- The enriched record `processNewTile` builds and stores (the object
literal spread `{...metadata, id, tileUrl, tilejsonUrl, timestamp}`). -/
def mkTileData (metadata : Metadata) (tileId : String) (now : Nat) : TileData :=
  { meta := metadata
    id := tileId
    tileUrl := TITILER_PUBLIC_URL ++
      "/cog/tiles/WebMercatorQuad/\x7bz\x7d/\x7bx\x7d/\x7by\x7d?url=/data/" ++
      tileId ++ ".tif"
    tilejsonUrl := TITILER_PUBLIC_URL ++ "/cog/tilejson.json?url=/data/" ++
      tileId ++ ".tif"
    timestamp := now }

/-- The two WebSocket message shapes the server sends: the connect-time
Snapshot (`type: 'initial'`) and the per-registration ChangeEvent
(`type: 'new_tile'`). -/
inductive Message where
  | initial (tiles : List TileData) (titilerUrl : String)
  | newTile (tile : TileData)
  deriving DecidableEq, Repr

/-- Tile id `processNewTile` derives from a sidecar path
(`filename.replace('.json', '')`). -/
def tileIdOf (filePath : String) : String :=
  jsReplaceFirst (basename filePath) ".json"

/-- Path of the raster file paired with a sidecar path
(`path.join(path.dirname(filePath), tileId + '.tif')`). -/
def tifPathOf (filePath : String) : String :=
  pathJoin (dirname filePath) (tileIdOf filePath ++ ".tif")

/-- Model of `processNewTile`: validate the path is a `.json` sidecar,
require the sibling `.tif` to exist, parse the sidecar, enrich, store with
`Map.set`, and emit one `new_tile` broadcast.  Returns the updated registry
and the list of messages handed to `broadcast` (empty on any early return). -/
def processNewTile (fs : FS) (filePath : String) (now : Nat) (reg : Registry) :
    Registry × List Message :=
  if strEndsWith (basename filePath) ".json" = false then (reg, [])
  else if fs.existsSync (tifPathOf filePath) = false then (reg, [])
  else
    match readTileMetadata fs filePath with
    | none => (reg, [])
    | some metadata =>
      let tileData := mkTileData metadata (tileIdOf filePath) now
      (mapSet reg (tileIdOf filePath) tileData, [Message.newTile tileData])

/-- A connected WebSocket session: its identity and `readyState`. -/
structure Session where
  sid : Nat
  readyState : Nat
  deriving DecidableEq, Repr

/-- Model of `broadcast`: send the message to every client in the set whose
`readyState` is `OPEN`; the result is the list of `(sid, message)` sends in
set-iteration order. -/
def broadcast (clients : List Session) (m : Message) : List (Nat × Message) :=
  (clients.filter (fun c => c.readyState == WS_OPEN)).map (fun c => (c.sid, m))

/-- Whole-server state: the broadcast set (`clients`), the registry
(`tilesMetadata`) and a chronological log of every message sent, tagged by
recipient session. -/
structure ServerState where
  clients : List Session
  tilesMetadata : Registry
  logs : List (Nat × Message)

/-- The server's events on its single-threaded loop: a WebSocket
connection opening, a session leaving the broadcast set (`close`/`error`
handlers), and a chokidar `add`/`change` file event (both call
`processNewTile`). -/
inductive SEvent where
  | connect (sid : Nat)
  | disconnect (sid : Nat)
  | fileEvent (fs : FS) (path : String) (now : Nat)

/-- Does this event open a connection for session `sid`? -/
def SEvent.isConnectOf (sid : Nat) : SEvent → Bool
  | .connect s => s == sid
  | _ => false

/-- One step of the server loop.  `connect` adds the session to the
broadcast set and immediately sends it the Snapshot of the current
registry with the public TiTiler URL; `disconnect` removes it;
`fileEvent` runs `processNewTile` and broadcasts its messages. -/
def step (st : ServerState) : SEvent → ServerState
  | .connect sid =>
    { st with
      clients := st.clients ++ [⟨sid, WS_OPEN⟩]
      logs := st.logs ++
        [(sid, Message.initial (mapValues st.tilesMetadata) TITILER_PUBLIC_URL)] }
  | .disconnect sid =>
    { st with clients := st.clients.filter (fun c => !(c.sid == sid)) }
  | .fileEvent fs path now =>
    let res := processNewTile fs path now st.tilesMetadata
    { st with
      tilesMetadata := res.1
      logs := st.logs ++ res.2.flatMap (fun m => broadcast st.clients m) }

/-- The server's start state: empty broadcast set, empty registry. -/
def initState : ServerState := { clients := [], tilesMetadata := [], logs := [] }

/-- Run the server over a trace of events. -/
def runServer (tr : List SEvent) : ServerState := tr.foldl step initState

/-- The messages a given session has been sent, in order. -/
def logsFor (sid : Nat) (st : ServerState) : List (Nat × Message) :=
  st.logs.filter (fun p => p.1 == sid)

/-- Model of the `GET /api/tiles/:id` handler's response body. -/
inductive HttpResponse where
  | ok (tile : TileData)
  | notFound (error : String)
  deriving DecidableEq, Repr

/-- Model of `app.get('/api/tiles/:id')`: look the id up; reply with the
record, or with HTTP 404 and `{error: 'Tile not found'}`.  The handler
never touches the registry, which is returned unchanged alongside the
response. -/
def getTileById (reg : Registry) (id : String) : HttpResponse × Registry :=
  match mapGet reg id with
  | some tile => (HttpResponse.ok tile, reg)
  | none => (HttpResponse.notFound "Tile not found", reg)

/-! ### Client model (`useTileWebSocket.ts`) -/

/-- Scanning animation duration in ms (`VITE_SCANNING_DURATION` default). -/
def SCANNING_DURATION : Nat := 2000

/-- The settle delay between scan cycles (the inner `setTimeout(..., 300)`). -/
def SETTLE_DELAY : Nat := 300

/-- Client drone state: current position (lon, lat), scanning flag and the
tile currently being scanned. -/
structure DroneState where
  position : Option (Rat × Rat)
  isScanning : Bool
  targetTile : Option TileData
  deriving DecidableEq, Repr

/-- The tile center `processNextTile` computes, as `(lon, lat)`:
`centerLon = (bbox[1] + bbox[3]) / 2`, `centerLat = (bbox[0] + bbox[2]) / 2`
(the bbox is `[lat, lon, lat, lon]`). -/
def tileCenter (t : TileData) : Rat × Rat :=
  ((t.meta.bbox.b1 + t.meta.bbox.b3) / 2, (t.meta.bbox.b0 + t.meta.bbox.b2) / 2)

/-- The pending animation `setTimeout` of the scan cycle: none scheduled, the
scan-completion timer (fires after `SCANNING_DURATION`), or the settle
timer (fires after `SETTLE_DELAY`). -/
inductive AnimTimer where
  | idle
  | scanning (tile : TileData)
  | settling
  deriving DecidableEq, Repr

/-- Delay in milliseconds until the scheduled animation timer fires. -/
def AnimTimer.delay : AnimTimer → Nat
  | .idle => 0
  | .scanning _ => SCANNING_DURATION
  | .settling => SETTLE_DELAY

/-- Wire shape of a parsed WebSocket message on the client
(`WebSocketMessage` in `types/tile.ts`): a `type` tag and three optional
fields. -/
structure WSMessage where
  type : String
  tiles : Option (List TileData)
  tile : Option TileData
  titilerUrl : Option String
  deriving DecidableEq, Repr

/-- Whole client-hook state: the known map (`tiles`), the revealed map
(`visibleTiles`), the TiTiler URL, the drone state, the pending animation
queue (`pendingTilesRef`), the `processingRef` flag, the scheduled
animation timer, and `scanLog`, a history variable recording the ids of
tiles in the order they entered `Scanning` state. -/
structure ClientState where
  tiles : JsMap TileData
  visibleTiles : JsMap TileData
  titilerUrl : String
  droneState : DroneState
  pendingTiles : List TileData
  processing : Bool
  timer : AnimTimer
  scanLog : List String
  deriving Repr

/-- The hook's initial state (all maps empty, drone at `null`, not
scanning, nothing pending). -/
def initClientState (defaultTitilerUrl : String) : ClientState :=
  { tiles := []
    visibleTiles := []
    titilerUrl := defaultTitilerUrl
    droneState := { position := none, isScanning := false, targetTile := none }
    pendingTiles := []
    processing := false
    timer := .idle
    scanLog := [] }

/-- Model of `processNextTile` (the synchronous part): bail out when already
processing or the queue is empty; otherwise set `processing`, dequeue the
head tile, fly the drone to its center with `isScanning = true`, and
schedule the scan-completion timer. -/
def processNextTile (s : ClientState) : ClientState :=
  if s.processing || s.pendingTiles.isEmpty then s
  else
    match s.pendingTiles with
    | [] => s
    | tile :: rest =>
      { s with
        processing := true
        pendingTiles := rest
        droneState :=
          { position := some (tileCenter tile)
            isScanning := true
            targetTile := some tile }
        timer := .scanning tile
        scanLog := s.scanLog ++ [tile.id] }

/-- Fire the scheduled animation timer.  The scan-completion callback adds
the tile to `visibleTiles`, stops the scanning flag and schedules the
settle timer; the settle callback clears `processing` and re-invokes
`processNextTile`. -/
def fireTimer (s : ClientState) : ClientState :=
  match s.timer with
  | .idle => s
  | .scanning tile =>
    { s with
      visibleTiles := mapSet s.visibleTiles tile.id tile
      droneState := { s.droneState with isScanning := false }
      timer := .settling }
  | .settling =>
    processNextTile { s with processing := false, timer := .idle }

/-- The JS comparator `(a, b) => a.row !== b.row ? a.row - b.row
: a.col - b.col` as a strict order on records. -/
def tileLt (a b : TileData) : Bool :=
  if a.meta.row == b.meta.row then a.meta.col < b.meta.col
  else a.meta.row < b.meta.row

/-- Stable insertion keeping an element after earlier equals — the
placement a stable `Array.prototype.sort` produces for this comparator. -/
def insertSorted (x : TileData) : List TileData → List TileData
  | [] => [x]
  | y :: ys => if tileLt x y then x :: y :: ys else y :: insertSorted x ys

/-- Model of `[...message.tiles].sort(byRowThenCol)` (stable sort). -/
def sortTiles (ts : List TileData) : List TileData :=
  ts.foldl (fun acc x => insertSorted x acc) []

/-- The key/value entries `new Map(sorted.map(tile => [tile.id, tile]))` is
built from. -/
def snapshotEntries (ts : List TileData) : List (String × TileData) :=
  (sortTiles ts).map (fun t => (t.id, t))

def applySnapshot (s : ClientState) (ts : List TileData) : ClientState :=
  -- the non-empty-tiles body of the 'initial' branch: sort by row then col,
  -- replace both maps, park the idle drone at the last sorted tile
  match (sortTiles ts).getLast? with
  | some lastTile =>
    { s with
      tiles := mapOfEntries (snapshotEntries ts)
      visibleTiles := mapOfEntries (snapshotEntries ts)
      droneState :=
        { position := some (tileCenter lastTile)
          isScanning := false
          targetTile := some lastTile } }
  | none =>
    { s with
      tiles := mapOfEntries (snapshotEntries ts)
      visibleTiles := mapOfEntries (snapshotEntries ts) }

/-- Model of the `'initial'` branch of `ws.onmessage`: update the TiTiler
URL when the message carries one (JS truthiness: the empty string is
falsy), and only when the `tiles` array is present and non-empty, sort it
by row then col, wholesale-replace both maps, and park the idle drone at
the last sorted tile.  Nothing else — in particular the pending queue, the
`processing` flag and any in-flight timer — is touched. -/
def updateTitiler (s : ClientState) (mu : Option String) : ClientState :=
  -- `if (message.titilerUrl) setTitilerUrl(...)`: JS truthiness, so the
  -- empty string leaves the URL alone
  match mu with
  | some u => if u = "" then s else { s with titilerUrl := u }
  | none => s

def handleInitial (s : ClientState) (m : WSMessage) : ClientState :=
  match m.tiles with
  | some ts =>
    if ts.length > 0 then applySnapshot (updateTitiler s m.titilerUrl) ts
    else updateTitiler s m.titilerUrl
  | none => updateTitiler s m.titilerUrl

/-- Model of the `'new_tile'` branch of `ws.onmessage`: add the tile to the
known map immediately, push it on the pending queue, then call
`processNextTile`. -/
def handleNewTile (s : ClientState) (t : TileData) : ClientState :=
  processNextTile
    { s with
      tiles := mapSet s.tiles t.id t
      pendingTiles := s.pendingTiles ++ [t] }

/-- Model of `ws.onmessage`: dispatch on the message `type` tag; a
`'new_tile'` message without a `tile` field is ignored, as is any other
tag. -/
def onMessage (s : ClientState) (m : WSMessage) : ClientState :=
  if m.type = "initial" then handleInitial s m
  else if m.type = "new_tile" then
    match m.tile with
    | some t => handleNewTile s t
    | none => s
  else s

/-- Client events: a parsed WebSocket message arriving, or the scheduled
animation timer firing. -/
inductive CEvent where
  | msg (m : WSMessage)
  | fire

/-- One client step. -/
def cstep (s : ClientState) : CEvent → ClientState
  | .msg m => onMessage s m
  | .fire => fireTimer s

/-- Run the client over a list of events. -/
def runClient (s : ClientState) (tr : List CEvent) : ClientState :=
  tr.foldl cstep s

/-! ### Concrete fixtures (used by witnesses and counterexamples) -/

/-- Sidecar metadata for `tile_0_0` with integer-valued coordinates. -/
def metaA : Metadata :=
  { filename := "tile_0_0.tif", row := 0, col := 0,
    bounds := ⟨17, 32, 18, 33⟩, bbox := ⟨32, 17, 33, 18⟩,
    width := 1098, height := 1098 }

/-- Sidecar metadata for `tile_0_1`. -/
def metaB : Metadata :=
  { filename := "tile_0_1.tif", row := 0, col := 1,
    bounds := ⟨18, 32, 19, 33⟩, bbox := ⟨32, 18, 33, 19⟩,
    width := 1098, height := 1098 }

/-- Sidecar metadata for `tile_0_2`. -/
def metaC : Metadata :=
  { filename := "tile_0_2.tif", row := 0, col := 2,
    bounds := ⟨19, 32, 20, 33⟩, bbox := ⟨32, 19, 33, 20⟩,
    width := 1098, height := 1098 }

def pathA : String := "/data/tiles/tile_0_0.json"
def pathB : String := "/data/tiles/tile_0_1.json"

/-- A filesystem in which `tile_0_0`'s raster and parsable sidecar exist. -/
def fsA : FS :=
  { existsSync := fun p => p == "/data/tiles/tile_0_0.tif"
    parseFile := fun p => if p == pathA then some metaA else none }

/-- A filesystem in which both `tile_0_0` and `tile_0_1` are fully paired. -/
def fsAB : FS :=
  { existsSync := fun p =>
      p == "/data/tiles/tile_0_0.tif" || p == "/data/tiles/tile_0_1.tif"
    parseFile := fun p =>
      if p == pathA then some metaA
      else if p == pathB then some metaB else none }

/-- A filesystem in which `tile_0_0`'s sidecar exists but its raster is
missing. -/
def fsNoTif : FS :=
  { existsSync := fun _ => false
    parseFile := fun p => if p == pathA then some metaA else none }

/-- A filesystem in which `tile_0_0`'s raster exists but the sidecar fails
to parse. -/
def fsBad : FS :=
  { existsSync := fun p => p == "/data/tiles/tile_0_0.tif"
    parseFile := fun _ => none }

/-- Registered records used as concrete client-side tiles. -/
def tileA : TileData := mkTileData metaA "tile_0_0" 100
def tileB : TileData := mkTileData metaB "tile_0_1" 200
def tileC : TileData := mkTileData metaC "tile_0_2" 300

/-- A `new_tile` wire message carrying tile `t`. -/
def newTileMsg (t : TileData) : WSMessage :=
  { type := "new_tile", tiles := none, tile := some t, titilerUrl := none }

/-- An `initial` wire message with a given tiles array. -/
def initialMsg (ts : List TileData) : WSMessage :=
  { type := "initial", tiles := some ts, tile := none,
    titilerUrl := some TITILER_PUBLIC_URL }

/-! ### Helper lemmas: JS `Map` semantics -/

theorem mapGet_mapSet_self {α : Type} (m : JsMap α) (k : String) (v : α) :
    mapGet (mapSet m k v) k = some v := by
  induction m with
  | nil => simp [mapSet, mapGet]
  | cons p rest ih =>
    obtain ⟨k', v'⟩ := p
    by_cases h : k' = k
    · simp [mapSet, mapGet, h]
    · simp [mapSet, mapGet, h, ih]

theorem length_mapSet_of_mapGet_some {α : Type} (m : JsMap α) (k : String)
    (v w : α) (h : mapGet m k = some w) :
    (mapSet m k v).length = m.length := by
  induction m with
  | nil => simp [mapGet] at h
  | cons p rest ih =>
    obtain ⟨k', v'⟩ := p
    by_cases hk : k' = k
    · simp [mapSet, hk]
    · simp only [mapGet, if_neg hk] at h
      simp [mapSet, hk, ih h]

theorem mapSet_of_mapGet_none {α : Type} (m : JsMap α) (k : String) (v : α)
    (h : mapGet m k = none) :
    mapSet m k v = m ++ [(k, v)] := by
  induction m with
  | nil => simp [mapSet]
  | cons p rest ih =>
    obtain ⟨k', v'⟩ := p
    by_cases hk : k' = k
    · simp [mapGet, hk] at h
    · simp only [mapGet, if_neg hk] at h
      simp [mapSet, hk, ih h]

theorem mem_keys_mapSet {α : Type} (m : JsMap α) (k x : String) (v : α)
    (h : x ∈ (mapSet m k v).map Prod.fst) :
    x ∈ m.map Prod.fst ∨ x = k := by
  induction m with
  | nil => simpa [mapSet] using h
  | cons p rest ih =>
    obtain ⟨k', v'⟩ := p
    by_cases hk : k' = k
    · simp only [mapSet, if_pos hk, List.map_cons, List.mem_cons] at h
      rcases h with h1 | h2
      · right; exact h1
      · left; simp only [List.map_cons, List.mem_cons]; right; exact h2
    · simp only [mapSet, if_neg hk, List.map_cons, List.mem_cons] at h
      rcases h with h1 | h2
      · left; simp [h1]
      · rcases ih h2 with h3 | h4
        · left; simp only [List.map_cons, List.mem_cons]; right; exact h3
        · right; exact h4

theorem keys_nodup_mapSet {α : Type} (m : JsMap α) (k : String) (v : α)
    (h : (m.map Prod.fst).Nodup) :
    ((mapSet m k v).map Prod.fst).Nodup := by
  induction m with
  | nil => simp [mapSet]
  | cons p rest ih =>
    obtain ⟨k', v'⟩ := p
    simp only [List.map_cons, List.nodup_cons] at h
    by_cases hk : k' = k
    · subst hk
      simpa [mapSet, List.nodup_cons] using h
    · simp only [mapSet, if_neg hk, List.map_cons, List.nodup_cons]
      refine ⟨?_, ih h.2⟩
      intro hmem
      rcases mem_keys_mapSet rest k k' v hmem with h1 | h2
      · exact h.1 h1
      · exact hk h2

/-! ### Helper lemmas: `processNewTile` case analysis -/

theorem processNewTile_not_json (fs : FS) (filePath : String) (now : Nat)
    (reg : Registry) (h : strEndsWith (basename filePath) ".json" = false) :
    processNewTile fs filePath now reg = (reg, []) := by
  simp [processNewTile, h]

theorem processNewTile_no_tif (fs : FS) (filePath : String) (now : Nat)
    (reg : Registry) (h : fs.existsSync (tifPathOf filePath) = false) :
    processNewTile fs filePath now reg = (reg, []) := by
  by_cases hjson : strEndsWith (basename filePath) ".json" = false
  · simp [processNewTile, hjson]
  · simp [processNewTile, hjson, h]

theorem processNewTile_no_parse (fs : FS) (filePath : String) (now : Nat)
    (reg : Registry) (h : readTileMetadata fs filePath = none) :
    processNewTile fs filePath now reg = (reg, []) := by
  by_cases hjson : strEndsWith (basename filePath) ".json" = false
  · simp [processNewTile, hjson]
  · by_cases htif : fs.existsSync (tifPathOf filePath) = false
    · simp [processNewTile, hjson, htif]
    · simp [processNewTile, hjson, htif, h]

theorem processNewTile_success (fs : FS) (filePath : String) (now : Nat)
    (reg : Registry) (metadata : Metadata)
    (hjson : strEndsWith (basename filePath) ".json" = true)
    (htif : fs.existsSync (tifPathOf filePath) = true)
    (hparse : readTileMetadata fs filePath = some metadata) :
    processNewTile fs filePath now reg =
      (mapSet reg (tileIdOf filePath)
        (mkTileData metadata (tileIdOf filePath) now),
       [Message.newTile (mkTileData metadata (tileIdOf filePath) now)]) := by
  simp [processNewTile, hjson, htif, hparse]

theorem processNewTile_msgs (fs : FS) (filePath : String) (now : Nat)
    (reg : Registry) :
    (processNewTile fs filePath now reg).2 = [] ∨
    ∃ t, (processNewTile fs filePath now reg).2 = [Message.newTile t] := by
  unfold processNewTile
  split
  · left; rfl
  split
  · left; rfl
  split
  · left; rfl
  · right; exact ⟨_, rfl⟩

theorem keys_nodup_processNewTile (fs : FS) (filePath : String) (now : Nat)
    (reg : Registry) (h : (reg.map Prod.fst).Nodup) :
    (((processNewTile fs filePath now reg).1).map Prod.fst).Nodup := by
  unfold processNewTile
  split
  · exact h
  split
  · exact h
  split
  · exact h
  · exact keys_nodup_mapSet _ _ _ h

/-! ### Helper lemmas: the server loop -/

theorem step_keys_nodup (st : ServerState) (e : SEvent)
    (h : (st.tilesMetadata.map Prod.fst).Nodup) :
    (((step st e).tilesMetadata).map Prod.fst).Nodup := by
  cases e with
  | connect sid => exact h
  | disconnect sid => exact h
  | fileEvent fs path now => exact keys_nodup_processNewTile fs path now _ h

theorem foldl_step_keys_nodup (tr : List SEvent) :
    ∀ st : ServerState, (st.tilesMetadata.map Prod.fst).Nodup →
      (((tr.foldl step st).tilesMetadata).map Prod.fst).Nodup := by
  induction tr with
  | nil => intro st h; exact h
  | cons e tr ih => intro st h; exact ih _ (step_keys_nodup st e h)

theorem runServer_keys_nodup (tr : List SEvent) :
    (((runServer tr).tilesMetadata).map Prod.fst).Nodup :=
  foldl_step_keys_nodup tr initState (by simp [initState])

theorem logsFor_step_no_connect (sid : Nat) (st : ServerState) (e : SEvent)
    (h : e.isConnectOf sid = false) :
    ∃ add, logsFor sid (step st e) = logsFor sid st ++ add ∧
      ∀ p ∈ add, ∃ t, p.2 = Message.newTile t := by
  cases e with
  | connect s =>
    have hs : (s == sid) = false := h
    refine ⟨[], ?_, by simp⟩
    simp [step, logsFor, List.filter_append, hs]
  | disconnect s => exact ⟨[], by simp [step, logsFor], by simp⟩
  | fileEvent fs path now =>
    refine ⟨((processNewTile fs path now st.tilesMetadata).2.flatMap
        (fun m => broadcast st.clients m)).filter (fun p => p.1 == sid),
      ?_, ?_⟩
    · simp [step, logsFor, List.filter_append]
    · intro p hp
      have hp' := List.mem_filter.mp hp
      rcases List.mem_flatMap.mp hp'.1 with ⟨m, hm, hpm⟩
      rcases processNewTile_msgs fs path now st.tilesMetadata with hnil | ⟨t, ht⟩
      · rw [hnil] at hm; simp at hm
      · rw [ht] at hm
        simp only [List.mem_singleton] at hm
        subst hm
        rcases List.mem_map.mp hpm with ⟨c, _, hcp⟩
        exact ⟨t, by rw [← hcp]⟩

theorem logsFor_foldl_no_connect (sid : Nat) (tr : List SEvent) :
    ∀ st : ServerState, (∀ e ∈ tr, e.isConnectOf sid = false) →
      ∃ rest, logsFor sid (tr.foldl step st) = logsFor sid st ++ rest ∧
        ∀ p ∈ rest, ∃ t, p.2 = Message.newTile t := by
  induction tr with
  | nil => intro st _; exact ⟨[], by simp, by simp⟩
  | cons e tr ih =>
    intro st h
    rcases logsFor_step_no_connect sid st e (h e (by simp)) with ⟨a, ha, hat⟩
    rcases ih (step st e) (fun e' he' => h e' (by simp [he'])) with ⟨r, hr, hrt⟩
    refine ⟨a ++ r, ?_, ?_⟩
    · simp only [List.foldl_cons] at *
      rw [hr, ha, List.append_assoc]
    · intro p hp
      rcases List.mem_append.mp hp with h1 | h2
      · exact hat p h1
      · exact hrt p h2

/-! ### Claim-specific refinement definitions -/

/-- Modelled from the spec's words in C7: the "naive element-pair average"
of the bbox — pairing the array elements positionally,
`(bbox[0], bbox[2])` and `(bbox[1], bbox[3])` read as `(lon, lat)`. -/
def specNaiveCenter (t : TileData) : Rat × Rat :=
  ((t.meta.bbox.b0 + t.meta.bbox.b2) / 2, (t.meta.bbox.b1 + t.meta.bbox.b3) / 2)

/-- The tile with the literal bbox `[32.99, 17.08, 33.10, 17.18]` from the
spec's axis-normalization property. -/
def tileLit : TileData :=
  mkTileData
    { filename := "tile_0_0.tif", row := 0, col := 0,
      bounds := ⟨17.08, 32.99, 17.18, 33.10⟩,
      bbox := ⟨32.99, 17.08, 33.10, 17.18⟩,
      width := 1098, height := 1098 }
    "tile_0_0" 0

/-! ### Claims -/

/-- C7: the client derives a tile's center reading the bbox as
`[lat, lon, lat, lon]`: `lon = (bbox[1] + bbox[3]) / 2` and
`lat = (bbox[0] + bbox[2]) / 2`; on the literal input
`bbox = [32.99, 17.08, 33.10, 17.18]` the center is
`(lon = 17.13, lat = 33.045)`, which differs from the naive element-pair
average. -/
theorem C7_axis_normalization :
    (∀ t : TileData, tileCenter t =
      ((t.meta.bbox.b1 + t.meta.bbox.b3) / 2,
       (t.meta.bbox.b0 + t.meta.bbox.b2) / 2)) ∧
    tileCenter tileLit = (17.13, 33.045) ∧
    tileCenter tileLit ≠ specNaiveCenter tileLit := by
  refine ⟨fun t => rfl, ?_, ?_⟩
  · simp only [tileCenter, tileLit, mkTileData, Prod.mk.injEq]
    norm_num
  · intro h
    simp only [tileCenter, specNaiveCenter, tileLit, mkTileData,
      Prod.mk.injEq] at h
    norm_num at h

/-- C8: a sidecar whose content fails to parse is dropped:
`readTileMetadata` returns `null`, and `processNewTile` registers nothing
and broadcasts nothing — at the server loop level the whole state is
unchanged.  (In the embedding `processNewTile` is a total function: the
`try/catch` in `readTileMetadata` means a parse failure can never throw
past it.) -/
theorem C8_malformed_sidecar (fs : FS) (filePath : String) (now : Nat)
    (reg : Registry) (st : ServerState)
    (hparse : fs.parseFile filePath = none) :
    readTileMetadata fs filePath = none ∧
    processNewTile fs filePath now reg = (reg, []) ∧
    step st (SEvent.fileEvent fs filePath now) = st := by
  have h0 : readTileMetadata fs filePath = none := hparse
  refine ⟨h0, processNewTile_no_parse fs filePath now reg h0, ?_⟩
  show step st (SEvent.fileEvent fs filePath now) = st
  have h1 := processNewTile_no_parse fs filePath now st.tilesMetadata h0
  cases st with
  | mk clients tiles logs =>
    simp only [step, h1, List.flatMap_nil, List.append_nil]

/-- Witness for C8 at a concrete malformed sidecar. -/
theorem C8_malformed_sidecar_witness :
    fsBad.parseFile pathA = none ∧
    (readTileMetadata fsBad pathA = none ∧
     processNewTile fsBad pathA 100 [] = ([], []) ∧
     step initState (SEvent.fileEvent fsBad pathA 100) = initState) :=
  ⟨rfl, C8_malformed_sidecar fsBad pathA 100 [] initState rfl⟩

/-- C9: fetching one tile by id returns the stored record when the id is
present and a distinct 404 `Tile not found` error when it is absent; the
registry is returned unchanged in both cases, and the handler is a total
function (never a crash). -/
theorem C9_get_tile_not_found (reg : Registry) (id : String) :
    (∃ t, mapGet reg id = some t ∧
      getTileById reg id = (HttpResponse.ok t, reg)) ∨
    (mapGet reg id = none ∧
      getTileById reg id = (HttpResponse.notFound "Tile not found", reg)) := by
  cases h : mapGet reg id with
  | none => right; exact ⟨rfl, by simp [getTileById, h]⟩
  | some t => left; exact ⟨t, rfl, by simp [getTileById, h]⟩

/-- C1 counterexample: calling `processNewTile` twice for the same sidecar
(registry already holds `tile_0_0`) reassigns the stored arrival timestamp
(100 becomes 200) and performs an additional `new_tile` broadcast — the
claimed idempotence fails at this concrete input. -/
theorem C1_counterexample :
    (mapGet (processNewTile fsA pathA 100 []).1 "tile_0_0").map
        TileData.timestamp = some 100 ∧
    (mapGet (processNewTile fsA pathA 200
        (processNewTile fsA pathA 100 []).1).1 "tile_0_0").map
        TileData.timestamp = some 200 ∧
    (mapGet (processNewTile fsA pathA 200
        (processNewTile fsA pathA 100 []).1).1 "tile_0_0").map
        TileData.timestamp ≠
      (mapGet (processNewTile fsA pathA 100 []).1 "tile_0_0").map
        TileData.timestamp ∧
    (processNewTile fsA pathA 200 (processNewTile fsA pathA 100 []).1).2 =
      [Message.newTile (mkTileData metaA "tile_0_0" 200)] := by
  refine ⟨rfl, rfl, ?_, rfl⟩
  intro h
  rw [show (mapGet (processNewTile fsA pathA 200
      (processNewTile fsA pathA 100 []).1).1 "tile_0_0").map
      TileData.timestamp = some 200 from rfl,
    show (mapGet (processNewTile fsA pathA 100 []).1 "tile_0_0").map
      TileData.timestamp = some 100 from rfl] at h
  simp at h

/-- C1 amended: re-invoking `processNewTile` for a sidecar whose tile id is
already registered leaves the registry size unchanged, but overwrites the
stored record with a freshly built one whose timestamp is the current call
time, and emits one additional `new_tile` broadcast. -/
theorem C1_reregistration_overwrites (fs : FS) (filePath : String)
    (now : Nat) (reg : Registry) (metadata : Metadata) (old : TileData)
    (hjson : strEndsWith (basename filePath) ".json" = true)
    (htif : fs.existsSync (tifPathOf filePath) = true)
    (hparse : readTileMetadata fs filePath = some metadata)
    (hpresent : mapGet reg (tileIdOf filePath) = some old) :
    ((processNewTile fs filePath now reg).1).length = reg.length ∧
    mapGet (processNewTile fs filePath now reg).1 (tileIdOf filePath) =
      some (mkTileData metadata (tileIdOf filePath) now) ∧
    (processNewTile fs filePath now reg).2 =
      [Message.newTile (mkTileData metadata (tileIdOf filePath) now)] := by
  rw [processNewTile_success fs filePath now reg metadata hjson htif hparse]
  exact ⟨length_mapSet_of_mapGet_some reg (tileIdOf filePath) _ old hpresent,
    mapGet_mapSet_self reg (tileIdOf filePath) _, rfl⟩

/-- Witness for the amended C1 at a concrete double registration. -/
theorem C1_reregistration_overwrites_witness :
    ((processNewTile fsA pathA 200 (processNewTile fsA pathA 100 []).1).1).length =
      ((processNewTile fsA pathA 100 []).1).length ∧
    mapGet (processNewTile fsA pathA 200
        (processNewTile fsA pathA 100 []).1).1 (tileIdOf pathA) =
      some (mkTileData metaA (tileIdOf pathA) 200) ∧
    (processNewTile fsA pathA 200 (processNewTile fsA pathA 100 []).1).2 =
      [Message.newTile (mkTileData metaA (tileIdOf pathA) 200)] :=
  C1_reregistration_overwrites fsA pathA 200 (processNewTile fsA pathA 100 []).1
    metaA (mkTileData metaA (tileIdOf pathA) 100) rfl rfl rfl rfl

/-- C2: the pairing gate.  For a sidecar path, if the paired raster does
not exist the event produces no registration and no broadcast; when the
raster exists (and the sidecar parses, the id being new) the same call
performs exactly one registration — the registry is extended with exactly
that one id — and one `new_tile` broadcast. -/
theorem C2_pairing_gate (fs : FS) (filePath : String) (now : Nat)
    (reg : Registry) (metadata : Metadata)
    (hjson : strEndsWith (basename filePath) ".json" = true) :
    (fs.existsSync (tifPathOf filePath) = false →
      processNewTile fs filePath now reg = (reg, [])) ∧
    (fs.existsSync (tifPathOf filePath) = true →
     readTileMetadata fs filePath = some metadata →
     mapGet reg (tileIdOf filePath) = none →
      processNewTile fs filePath now reg =
        (reg ++ [(tileIdOf filePath, mkTileData metadata (tileIdOf filePath) now)],
         [Message.newTile (mkTileData metadata (tileIdOf filePath) now)]) ∧
      ((processNewTile fs filePath now reg).1).length = reg.length + 1) := by
  constructor
  · intro htif
    exact processNewTile_no_tif fs filePath now reg htif
  · intro htif hparse hfresh
    have hsucc := processNewTile_success fs filePath now reg metadata hjson htif hparse
    have happend := mapSet_of_mapGet_none reg (tileIdOf filePath)
      (mkTileData metadata (tileIdOf filePath) now) hfresh
    constructor
    · rw [hsucc, happend]
    · rw [hsucc]
      simp [happend]

/-- Witness for C2: with the raster missing the event is dropped; once the
raster exists the same sidecar registers exactly once. -/
theorem C2_pairing_gate_witness :
    processNewTile fsNoTif pathA 100 [] = ([], []) ∧
    (processNewTile fsA pathA 100 [] =
      ([(tileIdOf pathA, mkTileData metaA (tileIdOf pathA) 100)],
       [Message.newTile (mkTileData metaA (tileIdOf pathA) 100)]) ∧
     ((processNewTile fsA pathA 100 []).1).length = 0 + 1) :=
  ⟨(C2_pairing_gate fsNoTif pathA 100 [] metaA rfl).1 rfl,
   (C2_pairing_gate fsA pathA 100 [] metaA rfl).2 rfl rfl rfl⟩

/-- C3: snapshot completeness.  A session connecting after any trace of
events receives, as its very first message, exactly one Snapshot of type
`initial` whose tiles array is exactly the registry's records at connect
time (whose ids are duplicate-free) together with the public
rendering-service base URL; every message that reaches the session
afterwards is a `new_tile` ChangeEvent, so the Snapshot precedes every
ChangeEvent delivered to that session. -/
theorem C3_snapshot_completeness (tr tr' : List SEvent) (sid : Nat)
    (hfresh : logsFor sid (runServer tr) = [])
    (hnore : ∀ e ∈ tr', e.isConnectOf sid = false) :
    (((runServer tr).tilesMetadata).map Prod.fst).Nodup ∧
    ∃ rest,
      logsFor sid (runServer (tr ++ SEvent.connect sid :: tr')) =
        (sid, Message.initial (mapValues (runServer tr).tilesMetadata)
          TITILER_PUBLIC_URL) :: rest ∧
      ∀ p ∈ rest, ∃ t, p.2 = Message.newTile t := by
  refine ⟨runServer_keys_nodup tr, ?_⟩
  have h1 : runServer (tr ++ SEvent.connect sid :: tr') =
      tr'.foldl step (step (runServer tr) (SEvent.connect sid)) := by
    unfold runServer
    rw [List.foldl_append, List.foldl_cons]
  rcases logsFor_foldl_no_connect sid tr'
      (step (runServer tr) (SEvent.connect sid)) hnore with ⟨rest, hr, hrt⟩
  have h2 : logsFor sid (step (runServer tr) (SEvent.connect sid)) =
      [(sid, Message.initial (mapValues (runServer tr).tilesMetadata)
        TITILER_PUBLIC_URL)] := by
    unfold logsFor at hfresh ⊢
    simp [step, List.filter_append, hfresh]
  exact ⟨rest, by rw [h1, hr, h2, List.singleton_append], hrt⟩

/-- Witness for C3: after two registrations, session 7 connects and a
third registration follows; its log starts with the two-tile Snapshot
followed only by ChangeEvents. -/
theorem C3_snapshot_completeness_witness :
    (((runServer [SEvent.fileEvent fsAB pathA 100,
        SEvent.fileEvent fsAB pathB 150]).tilesMetadata).map Prod.fst).Nodup ∧
    ∃ rest,
      logsFor 7 (runServer ([SEvent.fileEvent fsAB pathA 100,
          SEvent.fileEvent fsAB pathB 150] ++ SEvent.connect 7 ::
          [SEvent.fileEvent fsA pathA 400])) =
        (7, Message.initial (mapValues (runServer [SEvent.fileEvent fsAB pathA 100,
          SEvent.fileEvent fsAB pathB 150]).tilesMetadata)
          TITILER_PUBLIC_URL) :: rest ∧
      ∀ p ∈ rest, ∃ t, p.2 = Message.newTile t := by
  refine C3_snapshot_completeness _ _ 7 rfl ?_
  intro e he
  simp only [List.mem_singleton] at he
  subst he
  rfl

theorem countP_open_sessions (l : List Session)
    (hnd : (l.map Session.sid).Nodup) (c : Session) (hc : c ∈ l) :
    l.countP (fun s => (s.sid == c.sid) && (s.readyState == WS_OPEN)) =
      if c.readyState = WS_OPEN then 1 else 0 := by
  induction l with
  | nil => simp at hc
  | cons a l ih =>
    simp only [List.map_cons, List.nodup_cons] at hnd
    rcases List.mem_cons.mp hc with rfl | hcl
    · rw [List.countP_cons]
      have hzero : l.countP
          (fun s => (s.sid == c.sid) && (s.readyState == WS_OPEN)) = 0 := by
        rw [List.countP_eq_zero]
        intro s hs
        have hne : s.sid ≠ c.sid := by
          intro heq
          exact hnd.1 (heq ▸ List.mem_map.mpr ⟨s, hs, rfl⟩)
        simp [hne]
      rw [hzero]
      by_cases hopen : c.readyState = WS_OPEN
      · simp [hopen]
      · have hbeq : (c.readyState == WS_OPEN) = false := by simpa using hopen
        simp [hbeq, hopen]
    · have hne : a.sid ≠ c.sid := by
        intro heq
        exact hnd.1 (heq ▸ List.mem_map.mpr ⟨c, hcl, rfl⟩)
      rw [List.countP_cons]
      have hfalse : ((a.sid == c.sid) && (a.readyState == WS_OPEN)) = false := by
        simp [hne]
      simp only [hfalse, if_false, Nat.add_zero]
      exact ih hnd.2 hcl

/-- C4: no missed events.  On a successful registration the server appends
to the send log exactly one `new_tile` ChangeEvent carrying only the newly
built record for every session of the broadcast set whose `readyState` is
`OPEN`, in set order, and nothing else; with duplicate-free session ids,
each open session receives exactly one message for the registration and
each non-open session receives none.  The broadcast set itself is
unchanged. -/
theorem C4_no_missed_events (st : ServerState) (fs : FS) (filePath : String)
    (now : Nat) (metadata : Metadata)
    (hjson : strEndsWith (basename filePath) ".json" = true)
    (htif : fs.existsSync (tifPathOf filePath) = true)
    (hparse : readTileMetadata fs filePath = some metadata) :
    (step st (SEvent.fileEvent fs filePath now)).clients = st.clients ∧
    (step st (SEvent.fileEvent fs filePath now)).logs = st.logs ++
      (st.clients.filter (fun c => c.readyState == WS_OPEN)).map
        (fun c => (c.sid,
          Message.newTile (mkTileData metadata (tileIdOf filePath) now))) ∧
    ((st.clients.map Session.sid).Nodup →
      ∀ c ∈ st.clients,
        ((st.clients.filter (fun c => c.readyState == WS_OPEN)).map
          (fun c' => (c'.sid,
            Message.newTile (mkTileData metadata (tileIdOf filePath) now)))).countP
          (fun p => p.1 == c.sid) =
        if c.readyState = WS_OPEN then 1 else 0) := by
  have hsucc := processNewTile_success fs filePath now st.tilesMetadata
    metadata hjson htif hparse
  refine ⟨rfl, ?_, ?_⟩
  · simp [step, hsucc, broadcast]
  · intro hnd c hc
    rw [List.countP_map, List.countP_filter]
    have hpred : (fun (a : Session) => ((fun (p : Nat × Message) => (p.1 == c.sid : Bool)) ∘
        fun (c' : Session) => (c'.sid, Message.newTile
          (mkTileData metadata (tileIdOf filePath) now))) a &&
        (fun (c : Session) => (c.readyState == WS_OPEN : Bool)) a) =
        fun (s : Session) => (s.sid == c.sid) && (s.readyState == WS_OPEN) := rfl
    rw [hpred]
    exact countP_open_sessions st.clients hnd c hc

/-- Witness for C4: one open and one non-open session during a concrete
registration. -/
theorem C4_no_missed_events_witness :
    (step { clients := [⟨1, WS_OPEN⟩, ⟨2, 3⟩], tilesMetadata := [], logs := [] }
        (SEvent.fileEvent fsA pathA 100)).clients =
      [⟨1, WS_OPEN⟩, ⟨2, 3⟩] ∧
    (step { clients := [⟨1, WS_OPEN⟩, ⟨2, 3⟩], tilesMetadata := [], logs := [] }
        (SEvent.fileEvent fsA pathA 100)).logs = [] ++
      (([⟨1, WS_OPEN⟩, ⟨2, 3⟩] : List Session).filter
        (fun c => c.readyState == WS_OPEN)).map
        (fun c => (c.sid,
          Message.newTile (mkTileData metaA (tileIdOf pathA) 100))) ∧
    ((([⟨1, WS_OPEN⟩, ⟨2, 3⟩] : List Session).map Session.sid).Nodup →
      ∀ c ∈ ([⟨1, WS_OPEN⟩, ⟨2, 3⟩] : List Session),
        ((([⟨1, WS_OPEN⟩, ⟨2, 3⟩] : List Session).filter
          (fun c => c.readyState == WS_OPEN)).map
          (fun c' => (c'.sid,
            Message.newTile (mkTileData metaA (tileIdOf pathA) 100)))).countP
          (fun p => p.1 == c.sid) =
        if c.readyState = WS_OPEN then 1 else 0) :=
  C4_no_missed_events
    { clients := [⟨1, WS_OPEN⟩, ⟨2, 3⟩], tilesMetadata := [], logs := [] }
    fsA pathA 100 metaA rfl rfl rfl

/-! ### Helper lemmas: the client animation queue -/

theorem processNextTile_scan_concat (s : ClientState) :
    (processNextTile s).scanLog ++
      ((processNextTile s).pendingTiles.map TileData.id) =
    s.scanLog ++ (s.pendingTiles.map TileData.id) := by
  unfold processNextTile
  split
  · rfl
  · split
    · rfl
    · next tile rest heq =>
      simp [heq]

theorem processNextTile_of_processing (s : ClientState)
    (h : s.processing = true) : processNextTile s = s := by
  unfold processNextTile
  rw [if_pos]
  rw [h]
  exact Bool.true_or _

theorem insertSorted_length (x : TileData) (l : List TileData) :
    (insertSorted x l).length = l.length + 1 := by
  induction l with
  | nil => rfl
  | cons y ys ih =>
    unfold insertSorted
    split
    · simp
    · simp [ih]

theorem sortTiles_length (ts : List TileData) :
    (sortTiles ts).length = ts.length := by
  suffices h : ∀ acc : List TileData,
      (ts.foldl (fun acc x => insertSorted x acc) acc).length =
        acc.length + ts.length by
    simpa using h []
  induction ts with
  | nil => intro acc; simp
  | cons t ts ih =>
    intro acc
    simp only [List.foldl_cons, List.length_cons]
    rw [ih (insertSorted t acc), insertSorted_length]
    omega

theorem cstep_fire (s : ClientState) : cstep s CEvent.fire = fireTimer s := rfl

theorem cstep_msg (s : ClientState) (m : WSMessage) :
    cstep s (CEvent.msg m) = onMessage s m := rfl

theorem fireTimer_idle (s : ClientState) (h : s.timer = AnimTimer.idle) :
    fireTimer s = s := by
  unfold fireTimer
  rw [h]

theorem fireTimer_scanning (s : ClientState) (t : TileData)
    (h : s.timer = AnimTimer.scanning t) :
    fireTimer s =
      { s with
        visibleTiles := mapSet s.visibleTiles t.id t
        droneState := { s.droneState with isScanning := false }
        timer := AnimTimer.settling } := by
  unfold fireTimer
  rw [h]

theorem fireTimer_settling (s : ClientState) (h : s.timer = AnimTimer.settling) :
    fireTimer s = processNextTile { s with processing := false, timer := AnimTimer.idle } := by
  unfold fireTimer
  rw [h]

theorem onMessage_initial (s : ClientState) (m : WSMessage)
    (h : m.type = "initial") : onMessage s m = handleInitial s m := by
  unfold onMessage
  rw [if_pos h]

theorem onMessage_new_tile (s : ClientState) (m : WSMessage) (t : TileData)
    (h : m.type = "new_tile") (ht : m.tile = some t) :
    onMessage s m = handleNewTile s t := by
  unfold onMessage
  rw [if_neg (by simp [h]), if_pos h, ht]

theorem onMessage_new_tile_none (s : ClientState) (m : WSMessage)
    (h : m.type = "new_tile") (ht : m.tile = none) :
    onMessage s m = s := by
  unfold onMessage
  rw [if_neg (by simp [h]), if_pos h, ht]

theorem onMessage_other (s : ClientState) (m : WSMessage)
    (h1 : m.type ≠ "initial") (h2 : m.type ≠ "new_tile") :
    onMessage s m = s := by
  unfold onMessage
  rw [if_neg h1, if_neg h2]

theorem applySnapshot_queue_untouched (s : ClientState) (ts : List TileData) :
    (applySnapshot s ts).pendingTiles = s.pendingTiles ∧
    (applySnapshot s ts).processing = s.processing ∧
    (applySnapshot s ts).timer = s.timer ∧
    (applySnapshot s ts).scanLog = s.scanLog := by
  unfold applySnapshot
  cases h : (sortTiles ts).getLast? <;> exact ⟨rfl, rfl, rfl, rfl⟩

theorem updateTitiler_queue_untouched (s : ClientState) (mu : Option String) :
    (updateTitiler s mu).pendingTiles = s.pendingTiles ∧
    (updateTitiler s mu).processing = s.processing ∧
    (updateTitiler s mu).timer = s.timer ∧
    (updateTitiler s mu).scanLog = s.scanLog := by
  unfold updateTitiler
  cases mu with
  | none => exact ⟨rfl, rfl, rfl, rfl⟩
  | some u =>
    dsimp only
    by_cases hu : u = ""
    · rw [if_pos hu]; exact ⟨rfl, rfl, rfl, rfl⟩
    · rw [if_neg hu]; exact ⟨rfl, rfl, rfl, rfl⟩

theorem handleInitial_queue_untouched (s : ClientState) (m : WSMessage) :
    (handleInitial s m).pendingTiles = s.pendingTiles ∧
    (handleInitial s m).processing = s.processing ∧
    (handleInitial s m).timer = s.timer ∧
    (handleInitial s m).scanLog = s.scanLog := by
  unfold handleInitial
  cases ht : m.tiles with
  | none => exact updateTitiler_queue_untouched s m.titilerUrl
  | some ts =>
    dsimp only
    by_cases hl : ts.length > 0
    · rw [if_pos hl]
      have h1 := applySnapshot_queue_untouched (updateTitiler s m.titilerUrl) ts
      have h2 := updateTitiler_queue_untouched s m.titilerUrl
      exact ⟨h1.1.trans h2.1, h1.2.1.trans h2.2.1,
        h1.2.2.1.trans h2.2.2.1, h1.2.2.2.trans h2.2.2.2⟩
    · rw [if_neg hl]
      exact updateTitiler_queue_untouched s m.titilerUrl

/-- The dispatcher never enqueues via an `initial` message and never
touches queue bookkeeping on unknown tags. -/
theorem onMessage_initial_queue_untouched (s : ClientState) (m : WSMessage)
    (h : m.type = "initial") :
    (onMessage s m).pendingTiles = s.pendingTiles ∧
    (onMessage s m).processing = s.processing ∧
    (onMessage s m).timer = s.timer ∧
    (onMessage s m).scanLog = s.scanLog := by
  unfold onMessage
  rw [if_pos h]
  exact handleInitial_queue_untouched s m

/-- Tiles a single client event appends to the pending animation queue. -/
def enqueuedOf : CEvent → List TileData
  | .fire => []
  | .msg m =>
    if m.type = "initial" then []
    else if m.type = "new_tile" then
      match m.tile with
      | some t => [t]
      | none => []
    else []

/-- Tiles a whole event trace appends, in arrival order. -/
def enqueuedTiles (tr : List CEvent) : List TileData :=
  tr.flatMap enqueuedOf

theorem cstep_scan_concat (s : ClientState) (e : CEvent) :
    (cstep s e).scanLog ++ ((cstep s e).pendingTiles.map TileData.id) =
      s.scanLog ++ (s.pendingTiles.map TileData.id) ++
        ((enqueuedOf e).map TileData.id) := by
  cases e with
  | fire =>
    rw [cstep_fire]
    cases htimer : s.timer with
    | idle => rw [fireTimer_idle s htimer]; simp [enqueuedOf]
    | scanning tile => rw [fireTimer_scanning s tile htimer]; simp [enqueuedOf]
    | settling =>
      rw [fireTimer_settling s htimer, processNextTile_scan_concat]
      simp [enqueuedOf]
  | msg m =>
    rw [cstep_msg]
    by_cases h1 : m.type = "initial"
    · rcases onMessage_initial_queue_untouched s m h1 with ⟨hp, _, _, hl⟩
      rw [hp, hl]
      simp [enqueuedOf, h1]
    · by_cases h2 : m.type = "new_tile"
      · cases htile : m.tile with
        | none =>
          rw [onMessage_new_tile_none s m h2 htile]
          simp [enqueuedOf, h1, h2, htile]
        | some t =>
          rw [onMessage_new_tile s m t h2 htile]
          unfold handleNewTile
          rw [processNextTile_scan_concat]
          simp [enqueuedOf, h1, h2, htile]
      · rw [onMessage_other s m h1 h2]
        simp [enqueuedOf, h1, h2]

theorem runClient_cons (s : ClientState) (e : CEvent) (tr : List CEvent) :
    runClient s (e :: tr) = runClient (cstep s e) tr := rfl

theorem runClient_fifo (tr : List CEvent) :
    ∀ s : ClientState,
      (runClient s tr).scanLog ++
        ((runClient s tr).pendingTiles.map TileData.id) =
      s.scanLog ++ (s.pendingTiles.map TileData.id) ++
        ((enqueuedTiles tr).map TileData.id) := by
  induction tr with
  | nil => intro s; simp [runClient, enqueuedTiles]
  | cons e tr ih =>
    intro s
    rw [runClient_cons, ih (cstep s e), cstep_scan_concat]
    simp [enqueuedTiles, List.append_assoc]

theorem handleNewTile_no_interrupt (s : ClientState) (t : TileData)
    (h : s.processing = true) :
    (handleNewTile s t).droneState = s.droneState ∧
    (handleNewTile s t).timer = s.timer ∧
    (handleNewTile s t).visibleTiles = s.visibleTiles ∧
    (handleNewTile s t).scanLog = s.scanLog ∧
    (handleNewTile s t).pendingTiles = s.pendingTiles ++ [t] := by
  unfold handleNewTile
  rw [processNextTile_of_processing _ (by simpa using h)]
  exact ⟨rfl, rfl, rfl, rfl, rfl⟩

/-- The scan-cycle invariant: a scan can only be in progress while the
cycle lock (`processing`) is held, and during the settle window the
scanning flag is already off — hence at most one tile is ever in
`Scanning` state and a new scan starts only after the previous full
cycle. -/
def ScanInv (s : ClientState) : Prop :=
  (s.droneState.isScanning = true → s.processing = true) ∧
  (s.timer = AnimTimer.settling → s.droneState.isScanning = false)

theorem processNextTile_scaninv (s : ClientState) (h : ScanInv s) :
    ScanInv (processNextTile s) := by
  unfold processNextTile
  split
  · exact h
  · split
    · exact h
    · exact ⟨fun _ => rfl, by intro hcon; cases hcon⟩

theorem applySnapshot_scaninv (s : ClientState) (ts : List TileData)
    (h : ScanInv s) : ScanInv (applySnapshot s ts) := by
  unfold applySnapshot
  cases hl : (sortTiles ts).getLast? with
  | none => exact ⟨h.1, h.2⟩
  | some lastTile =>
    exact ⟨(by intro hcon; cases hcon), fun _ => rfl⟩

theorem updateTitiler_scaninv (s : ClientState) (mu : Option String)
    (h : ScanInv s) : ScanInv (updateTitiler s mu) := by
  unfold updateTitiler
  cases mu with
  | none => exact h
  | some u =>
    dsimp only
    by_cases hu : u = ""
    · rw [if_pos hu]; exact h
    · rw [if_neg hu]; exact ⟨h.1, h.2⟩

theorem handleInitial_scaninv (s : ClientState) (m : WSMessage)
    (h : ScanInv s) : ScanInv (handleInitial s m) := by
  unfold handleInitial
  cases ht : m.tiles with
  | none => exact updateTitiler_scaninv s m.titilerUrl h
  | some ts =>
    dsimp only
    by_cases hl : ts.length > 0
    · rw [if_pos hl]
      exact applySnapshot_scaninv _ ts (updateTitiler_scaninv s m.titilerUrl h)
    · rw [if_neg hl]
      exact updateTitiler_scaninv s m.titilerUrl h

theorem cstep_scaninv (s : ClientState) (e : CEvent) (h : ScanInv s) :
    ScanInv (cstep s e) := by
  cases e with
  | fire =>
    rw [cstep_fire]
    cases htimer : s.timer with
    | idle => rw [fireTimer_idle s htimer]; exact h
    | scanning tile =>
      rw [fireTimer_scanning s tile htimer]
      exact ⟨(by intro hcon; cases hcon), fun _ => rfl⟩
    | settling =>
      rw [fireTimer_settling s htimer]
      apply processNextTile_scaninv
      exact ⟨(by intro hcon; rw [h.2 htimer] at hcon; cases hcon),
        (by intro hcon; cases hcon)⟩
  | msg m =>
    rw [cstep_msg]
    by_cases h1 : m.type = "initial"
    · rw [onMessage_initial s m h1]
      exact handleInitial_scaninv s m h
    · by_cases h2 : m.type = "new_tile"
      · cases htile : m.tile with
        | none => rw [onMessage_new_tile_none s m h2 htile]; exact h
        | some t =>
          rw [onMessage_new_tile s m t h2 htile]
          unfold handleNewTile
          apply processNextTile_scaninv
          exact h
      · rw [onMessage_other s m h1 h2]
        exact h

theorem runClient_scaninv (tr : List CEvent) :
    ∀ s : ClientState, ScanInv s → ScanInv (runClient s tr) := by
  induction tr with
  | nil => intro s h; exact h
  | cons e tr ih =>
    intro s h
    exact ih (cstep s e) (cstep_scaninv s e h)

theorem updateTitiler_fields (s : ClientState) (mu : Option String) :
    (updateTitiler s mu).tiles = s.tiles ∧
    (updateTitiler s mu).visibleTiles = s.visibleTiles ∧
    (updateTitiler s mu).droneState = s.droneState ∧
    (updateTitiler s mu).pendingTiles = s.pendingTiles ∧
    (updateTitiler s mu).processing = s.processing ∧
    (updateTitiler s mu).timer = s.timer ∧
    (updateTitiler s mu).scanLog = s.scanLog ∧
    (updateTitiler s mu).titilerUrl =
      (match mu with
       | some u => if u = "" then s.titilerUrl else u
       | none => s.titilerUrl) := by
  unfold updateTitiler
  cases mu with
  | none => exact ⟨rfl, rfl, rfl, rfl, rfl, rfl, rfl, rfl⟩
  | some u =>
    dsimp only
    by_cases hu : u = ""
    · rw [if_pos hu, if_pos hu]
      exact ⟨rfl, rfl, rfl, rfl, rfl, rfl, rfl, rfl⟩
    · rw [if_neg hu, if_neg hu]
      exact ⟨rfl, rfl, rfl, rfl, rfl, rfl, rfl, rfl⟩

/-- C10: an `initial` message whose tiles array is absent or empty leaves
the known map, the revealed map, the drone state, the pending animation
queue, the processing flag and the scheduled timer all unchanged; only the
TiTiler URL may be updated (and only when the message carries a non-empty
one). -/
theorem C10_empty_snapshot_is_noop (s : ClientState) (m : WSMessage)
    (htype : m.type = "initial")
    (hempty : m.tiles = none ∨ m.tiles = some []) :
    (onMessage s m).tiles = s.tiles ∧
    (onMessage s m).visibleTiles = s.visibleTiles ∧
    (onMessage s m).droneState = s.droneState ∧
    (onMessage s m).pendingTiles = s.pendingTiles ∧
    (onMessage s m).processing = s.processing ∧
    (onMessage s m).timer = s.timer ∧
    (onMessage s m).scanLog = s.scanLog ∧
    (onMessage s m).titilerUrl =
      (match m.titilerUrl with
       | some u => if u = "" then s.titilerUrl else u
       | none => s.titilerUrl) := by
  rw [onMessage_initial s m htype]
  unfold handleInitial
  rcases hempty with ht | ht <;> rw [ht]
  · exact updateTitiler_fields s m.titilerUrl
  · dsimp only
    rw [if_neg (by simp)]
    exact updateTitiler_fields s m.titilerUrl

/-- Witness for C10: an empty snapshot received by a client that already
knows one tile changes nothing but the URL. -/
theorem C10_empty_snapshot_is_noop_witness :
    (onMessage
        { initClientState TITILER_PUBLIC_URL with
          tiles := [("tile_0_0", tileA)] }
        { type := "initial", tiles := some [], tile := none,
          titilerUrl := some TITILER_PUBLIC_URL }).tiles =
      [("tile_0_0", tileA)] ∧
    (onMessage
        { initClientState TITILER_PUBLIC_URL with
          tiles := [("tile_0_0", tileA)] }
        { type := "initial", tiles := some [], tile := none,
          titilerUrl := some TITILER_PUBLIC_URL }).pendingTiles = [] := by
  have h := C10_empty_snapshot_is_noop
    { initClientState TITILER_PUBLIC_URL with tiles := [("tile_0_0", tileA)] }
    { type := "initial", tiles := some [], tile := none,
      titilerUrl := some TITILER_PUBLIC_URL }
    rfl (Or.inr rfl)
  exact ⟨h.1, h.2.2.2.1⟩

/-- A client that already shows `tile_0_0`. -/
def clientWithA : ClientState :=
  { initClientState TITILER_PUBLIC_URL with
    tiles := [("tile_0_0", tileA)]
    visibleTiles := [("tile_0_0", tileA)] }

/-- A client mid-animation: scanning `tile_0_1` with `tile_0_2` queued. -/
def clientScanningB : ClientState :=
  { initClientState TITILER_PUBLIC_URL with
    tiles := [("tile_0_1", tileB)]
    pendingTiles := [tileC]
    processing := true
    timer := AnimTimer.scanning tileB
    droneState :=
      { position := some (tileCenter tileB)
        isScanning := true
        targetTile := some tileB } }

/-- C5 counterexample: (a) an `initial` message with an empty tiles array
does not replace the local maps (the known map keeps its old record), and
(b) a snapshot containing a queued tile (`tile_0_2`) does not cancel its
queued animation — the pending queue still holds it afterwards. -/
theorem C5_counterexample :
    (onMessage clientWithA (initialMsg [])).tiles = [("tile_0_0", tileA)] ∧
    [("tile_0_0", tileA)] ≠ ([] : JsMap TileData) ∧
    (onMessage clientScanningB (initialMsg [tileB, tileC])).pendingTiles =
      [tileC] ∧
    [tileC] ≠ ([] : List TileData) := by
  refine ⟨rfl, by simp, rfl, by simp⟩

/-- C5 amended: on a `initial` message with a non-empty tiles array the
handler wholesale-replaces the known and revealed maps with exactly the
snapshot's (row/col-sorted) contents — every snapshot tile pre-revealed —
and parks the idle drone at the last sorted tile; but it does NOT touch
the pending animation queue, the processing flag or the scheduled timer
(queued animations are not cancelled), and an empty snapshot performs no
replacement at all (see the counterexample). -/
theorem C5_snapshot_replaces_maps (s : ClientState) (m : WSMessage)
    (ts : List TileData)
    (htype : m.type = "initial") (htiles : m.tiles = some ts)
    (hne : ts ≠ []) :
    ∃ lastTile, (sortTiles ts).getLast? = some lastTile ∧
      (onMessage s m).tiles = mapOfEntries (snapshotEntries ts) ∧
      (onMessage s m).visibleTiles = mapOfEntries (snapshotEntries ts) ∧
      (onMessage s m).droneState =
        { position := some (tileCenter lastTile)
          isScanning := false
          targetTile := some lastTile } ∧
      (onMessage s m).pendingTiles = s.pendingTiles ∧
      (onMessage s m).processing = s.processing ∧
      (onMessage s m).timer = s.timer ∧
      (onMessage s m).scanLog = s.scanLog := by
  have hlen : ts.length > 0 := List.length_pos.mpr hne
  have hsne : sortTiles ts ≠ [] := by
    intro hcon
    have hlens := sortTiles_length ts
    rw [hcon] at hlens
    simp only [List.length_nil] at hlens
    rw [← hlens] at hlen
    exact Nat.lt_irrefl 0 hlen
  obtain ⟨lastTile, hlast⟩ : ∃ lt', (sortTiles ts).getLast? = some lt' := by
    cases hl : (sortTiles ts).getLast? with
    | some x => exact ⟨x, rfl⟩
    | none => exact absurd (List.getLast?_eq_none_iff.mp hl) hsne
  refine ⟨lastTile, hlast, ?_⟩
  rw [onMessage_initial s m htype]
  unfold handleInitial
  rw [htiles]
  dsimp only
  rw [if_pos hlen]
  unfold applySnapshot
  rw [hlast]
  have hu := updateTitiler_queue_untouched s m.titilerUrl
  exact ⟨rfl, rfl, rfl, hu.1, hu.2.1, hu.2.2.1, hu.2.2.2⟩

/-- Witness for the amended C5: the mid-animation client receiving a
two-tile snapshot. -/
theorem C5_snapshot_replaces_maps_witness :
    ∃ lastTile,
      (sortTiles [tileB, tileC]).getLast? = some lastTile ∧
      (onMessage clientScanningB (initialMsg [tileB, tileC])).tiles =
        mapOfEntries (snapshotEntries [tileB, tileC]) ∧
      (onMessage clientScanningB (initialMsg [tileB, tileC])).visibleTiles =
        mapOfEntries (snapshotEntries [tileB, tileC]) ∧
      (onMessage clientScanningB (initialMsg [tileB, tileC])).droneState =
        { position := some (tileCenter lastTile)
          isScanning := false
          targetTile := some lastTile } ∧
      (onMessage clientScanningB (initialMsg [tileB, tileC])).pendingTiles =
        clientScanningB.pendingTiles ∧
      (onMessage clientScanningB (initialMsg [tileB, tileC])).processing =
        clientScanningB.processing ∧
      (onMessage clientScanningB (initialMsg [tileB, tileC])).timer =
        clientScanningB.timer ∧
      (onMessage clientScanningB (initialMsg [tileB, tileC])).scanLog =
        clientScanningB.scanLog :=
  C5_snapshot_replaces_maps clientScanningB (initialMsg [tileB, tileC])
    [tileB, tileC] rfl rfl (by simp)

/-- The arrival order `[A, B, C]` followed by the six timer fires of the
three scan cycles. -/
def c6Events : List CEvent :=
  [CEvent.msg (newTileMsg tileA), CEvent.msg (newTileMsg tileB),
   CEvent.msg (newTileMsg tileC),
   CEvent.fire, CEvent.fire, CEvent.fire,
   CEvent.fire, CEvent.fire, CEvent.fire]

/-- The observable drone state: the scanning flag and the target tile id. -/
def droneView (s : ClientState) : Bool × Option String :=
  (s.droneState.isScanning, s.droneState.targetTile.map TileData.id)

/-- C6: FIFO animation.  For the arrival sequence `[A, B, C]` the drone
passes through Idle → Scanning(A) → Idle → Scanning(B) → Idle →
Scanning(C) → Idle in that order (the concrete state trace below), tiles
enter `Scanning` in exactly the arrival order `[A, B, C]` (`scanLog`), and
in general: the scanned-so-far log concatenated with the still-pending
queue always equals the enqueue order (strict FIFO, no reorder, no loss);
an arrival during an in-progress cycle only appends to the queue, never
touching the drone state or the scheduled timer; and in every reachable
state a scan is in progress only while the cycle lock is held, with the
settle window starting only after scanning stopped — so at most one tile
is ever in `Scanning` state and the next tile is dequeued only when the
previous tile's full cycle (scan timer then settle timer) has completed. -/
theorem C6_fifo_animation :
    ((List.scanl cstep (initClientState TITILER_PUBLIC_URL) c6Events).map
        droneView =
      [(false, none),
       (true, some "tile_0_0"), (true, some "tile_0_0"),
       (true, some "tile_0_0"),
       (false, some "tile_0_0"),
       (true, some "tile_0_1"), (false, some "tile_0_1"),
       (true, some "tile_0_2"), (false, some "tile_0_2"),
       (false, some "tile_0_2")]) ∧
    ((runClient (initClientState TITILER_PUBLIC_URL) c6Events).scanLog =
      ["tile_0_0", "tile_0_1", "tile_0_2"]) ∧
    ((runClient (initClientState TITILER_PUBLIC_URL) c6Events).pendingTiles =
      []) ∧
    (∀ (tr : List CEvent) (s : ClientState),
      (runClient s tr).scanLog ++
        ((runClient s tr).pendingTiles.map TileData.id) =
      s.scanLog ++ (s.pendingTiles.map TileData.id) ++
        ((enqueuedTiles tr).map TileData.id)) ∧
    (∀ (s : ClientState) (t : TileData), s.processing = true →
      (handleNewTile s t).droneState = s.droneState ∧
      (handleNewTile s t).timer = s.timer ∧
      (handleNewTile s t).scanLog = s.scanLog ∧
      (handleNewTile s t).pendingTiles = s.pendingTiles ++ [t]) ∧
    (∀ (u : String) (tr : List CEvent),
      ScanInv (runClient (initClientState u) tr)) := by
  refine ⟨rfl, rfl, rfl, fun tr s => runClient_fifo tr s, ?_, ?_⟩
  · intro s t h
    have hh := handleNewTile_no_interrupt s t h
    exact ⟨hh.1, hh.2.1, hh.2.2.2.1, hh.2.2.2.2⟩
  · intro u tr
    refine runClient_scaninv tr _ ⟨?_, ?_⟩
    · intro hcon
      cases hcon
    · intro hcon
      cases hcon

/-- Witness for C6: an arrival while `tile_0_0` is mid-scan leaves the
drone state untouched, and the scan-cycle invariant holds after the whole
concrete trace. -/
theorem C6_fifo_animation_witness :
    ((handleNewTile
        (runClient (initClientState TITILER_PUBLIC_URL)
          [CEvent.msg (newTileMsg tileA)]) tileB).droneState =
      (runClient (initClientState TITILER_PUBLIC_URL)
        [CEvent.msg (newTileMsg tileA)]).droneState) ∧
    ScanInv (runClient (initClientState TITILER_PUBLIC_URL) c6Events) := by
  refine ⟨(C6_fifo_animation.2.2.2.2.1 _ tileB rfl).1,
    C6_fifo_animation.2.2.2.2.2 TITILER_PUBLIC_URL c6Events⟩

end DroneMapping
